import Mathlib

/-!
Shallow embedding of the core logic of the Jadwal-Sholat prayer-dashboard
application, together with theorems checking its natural-language
specification.

Embedded components:
* the data model of `types.ts` (`PrayerTime`, `HijriDateInfo`, `DailyData`);
* `markNextPrayer` from `src/App.tsx` (lines 27-94), decomposed into named
  helper functions that mirror the statements of the original function body;
* the compass-heading selection and smoothing logic of `handleOrientation`
  in the QiblaCompass component, with JS numbers modelled as exact rationals;
* `calculateQibla` from the QiblaCompass component, with JS numbers modelled
  as real numbers, `Math.atan2 y x` as `Complex.arg ⟨x, y⟩`, the JS `%`
  operator as truncated real remainder, and `Math.round` as `⌊x + 1/2⌋`.
-/

namespace JadwalSholat

/-! ## Data model (types.ts) -/

/-- Record `PrayerTime` of types.ts: a named prayer with an `HH:mm` time string.
The optional `isNext?` flag is modelled as a plain `Bool` (absent = false). -/
structure PrayerTime where
  name : String
  nameArabic : String
  time : String
  isNext : Bool
deriving Repr, DecidableEq

/-- Record `HijriDateInfo` of types.ts. -/
structure HijriDateInfo where
  day : Nat
  month : String
  year : Nat
  dayNameArabic : String
  fullString : String
deriving Repr, DecidableEq

/-- Record `DailyData` of types.ts; the optional `timezone?` and `quote?` fields are
modelled as `Option String`. -/
structure DailyData where
  gregorianDate : String
  hijri : HijriDateInfo
  prayers : List PrayerTime
  city : String
  timezone : Option String
  quote : Option String
deriving Repr, DecidableEq

/-! ## String helpers

`strContains hay needle` models the JS expression `hay.includes(needle)`
(substring containment), written out over the character lists of the two
strings so that it is executable and decidable. -/

/-- Is the first character list a prefix of the second? -/
def charsStartWith : List Char → List Char → Bool
  | [], _ => true
  | _ :: _, [] => false
  | a :: as, b :: bs => a == b && charsStartWith as bs

/-- Does the second character list occur as a contiguous sublist of the
first argument list? (needle first, haystack second). -/
def charsContains (needle : List Char) : List Char → Bool
  | [] => charsStartWith needle []
  | c :: cs => charsStartWith needle (c :: cs) || charsContains needle cs

/-- JS `hay.includes(needle)`. -/
def strContains (hay needle : String) : Bool :=
  charsContains needle.data hay.data

/-- Split a character list at every occurrence of the separator, modelling
JS `String.prototype.split` with a single-character separator. -/
def charsSplitOn (sep : Char) : List Char → List (List Char)
  | [] => [[]]
  | c :: cs =>
    let rest := charsSplitOn sep cs
    if c == sep then [] :: rest
    else
      match rest with
      | [] => [[c]]
      | r :: rs => (c :: r) :: rs

/-- The numeric value of a decimal digit character, if it is one. -/
def digitVal (c : Char) : Option Nat :=
  if 48 ≤ c.toNat ∧ c.toNat ≤ 57 then some (c.toNat - 48) else none

/-- Parse a non-empty list of decimal digits as a natural number. -/
def charsToNat? (cs : List Char) : Option Nat :=
  if cs.isEmpty then none
  else cs.foldl (fun acc c => acc.bind fun n => (digitVal c).map fun d => n * 10 + d)
    (some 0)

/-- ASCII lower-casing of a character list, modelling JS `toLowerCase()` on
the ASCII prayer names used by the app (Arabic letters are unaffected by
either operation). -/
def charsToLower (cs : List Char) : List Char :=
  cs.map Char.toLower

/-- The minutes-since-midnight value of a time string, modelling
`const [h, m] = t.split(sep).map(Number); h * 60 + m` (separator a colon) from `markNextPrayer`.
Malformed components (JS `NaN`) are outside the input contract of the spec;
they are modelled as 0. -/
def parseTimeMinutes (t : String) : Nat :=
  let parts := charsSplitOn (Char.ofNat 58) t.data
  let h := ((parts[0]?).bind charsToNat?).getD 0
  let m := ((parts[1]?).bind charsToNat?).getD 0
  h * 60 + m

/-! ## markNextPrayer (src/App.tsx, lines 27-94)

The original is a single function; it is decomposed here into named pieces,
each mirroring one statement of the source body.  `isToday` stands for the
source comparison `targetDate.toDateString() === now.toDateString()`, and
`currentMinutes` for `now.getHours() * 60 + now.getMinutes()`. -/

/-- The predicate of the source lookup
`data.prayers.find(p => p.name.toLowerCase() === "maghrib" ||
p.nameArabic.includes("المغرب"))` (quotes as in the source). -/
def isMaghribEntry (p : PrayerTime) : Bool :=
  charsToLower p.name.data == "maghrib".data || strContains p.nameArabic "المغرب"

/-- Value `maghribMinutes`: the minute value of the first Maghrib-like entry,
with the source fallback `18 * 60` when none is found. -/
def maghribMinutesOf (prayers : List PrayerTime) : Nat :=
  match prayers.find? isMaghribEntry with
  | some p => parseTimeMinutes p.time
  | none => 18 * 60

/-- Predicate `isNightPrayer`: the source check
`["Midnight", "LastThird", "Isha"].includes(p.name)` on the name, or the
corresponding membership test of the three Arabic labels on `p.nameArabic`. -/
def isNightPrayer (p : PrayerTime) : Bool :=
  (["Midnight", "LastThird", "Isha"].contains p.name) ||
  (["نصف الليل", "الثلث الأخير", "العشاء"].any fun n => strContains p.nameArabic n)

/-- The adjusted minute value of an entry: night prayers numerically earlier
than Maghrib get one day (24 * 60 minutes) added. -/
def adjustedMinutes (maghribMinutes : Nat) (p : PrayerTime) : Nat :=
  let prayerMinutes := parseTimeMinutes p.time
  if isNightPrayer p = true ∧ prayerMinutes < maghribMinutes then
    prayerMinutes + 24 * 60
  else prayerMinutes

/-- One iteration of the source `forEach` loop.  The accumulator is
`none` while `nextPrayerIndex = -1` / `minDiff = Infinity`, and
`some (idx, minDiff)` afterwards; `diff < minDiff` is always true against
`Infinity`, and comparison is strict, so the earliest minimum wins. -/
def selectStep (currentMinutes maghribMinutes : Nat)
    (acc : Option (Nat × Nat)) (ip : Nat × PrayerTime) : Option (Nat × Nat) :=
  let pm := adjustedMinutes maghribMinutes ip.2
  if pm > currentMinutes then
    let diff := pm - currentMinutes
    match acc with
    | none => some (ip.1, diff)
    | some (j, minDiff) =>
        if diff < minDiff then some (ip.1, diff) else some (j, minDiff)
  else acc

/-- Value of `nextPrayerIndex` after the loop, including the wrap-to-index-0 fallback
`if (nextPrayerIndex === -1) nextPrayerIndex = 0`. -/
def nextPrayerIndex (prayers : List PrayerTime) (currentMinutes : Nat) : Nat :=
  match prayers.enum.foldl
      (selectStep currentMinutes (maghribMinutesOf prayers)) none with
  | some (i, _) => i
  | none => 0

/-- Function `markNextPrayer` from src/App.tsx.  The indexed JS map
`data.prayers.map((p, idx) => ({...p, isNext: idx === nextPrayerIndex}))`
is modelled as a map over the index-value pairs of `List.enum`. -/
def markNextPrayer (data : DailyData) (isToday : Bool)
    (currentMinutes : Nat) : DailyData :=
  if !isToday then
    { data with prayers := data.prayers.map fun p => { p with isNext := false } }
  else
    let n := nextPrayerIndex data.prayers currentMinutes
    { data with
      prayers := data.prayers.enum.map fun ip => { ip.2 with isNext := ip.1 == n } }

/-! ## Compass heading (QiblaCompass component, `handleOrientation`)

JS numbers carried by orientation events are modelled as exact rationals,
so that every definition is executable and decidable.  A missing field
(`undefined` / `null`) is `none`. -/

/-- JS `Math.abs`, written as a conditional so that it is kernel-computable
on rationals. -/
def jsAbs (q : ℚ) : ℚ := if q < 0 then -q else q

/-- Function `jsAbs` agrees with the absolute value. -/
theorem jsAbs_eq_abs (q : ℚ) : jsAbs q = |q| := by
  unfold jsAbs
  split
  · rw [abs_of_neg] ; assumption
  · rw [abs_of_nonneg] ; exact le_of_not_lt (by assumption)

/-- The fields of a device-orientation event used by `handleOrientation`. -/
structure OrientationEvt where
  webkitCompassHeading : Option ℚ
  absolute : Bool
  alpha : Option ℚ
deriving Repr, DecidableEq

/-- The `compass` value chosen by the if-chain at the top of
`handleOrientation`.  The JS test `if (e.webkitCompassHeading)` is a
truthiness test: it takes the first branch only when the field is present
and nonzero (`undefined`, `null` and `0` are all falsy).  Branches 2 and 3
correspond to `e.absolute && e.alpha !== null` and `e.alpha !== null`; when
no branch fires, `compass` keeps its initialisation `0`. -/
def compassOfEvent (e : OrientationEvt) : ℚ :=
  match e.webkitCompassHeading with
  | some w =>
      if w ≠ 0 then w
      else if e.absolute && e.alpha.isSome then jsAbs (e.alpha.getD 0 - 360)
      else if e.alpha.isSome then jsAbs (e.alpha.getD 0 - 360)
      else 0
  | none =>
      if e.absolute && e.alpha.isSome then jsAbs (e.alpha.getD 0 - 360)
      else if e.alpha.isSome then jsAbs (e.alpha.getD 0 - 360)
      else 0

/-- The mutable state of the compass view: `rawHeading` and `smoothHeading`
(React state) and `lastHeadingRef.current`. -/
structure CompassState where
  rawHeading : ℚ
  smoothHeading : ℚ
  lastHeading : ℚ
deriving Repr, DecidableEq

/-- The state written when the compass view is (re)opened. -/
def resetState : CompassState := ⟨0, 0, 0⟩

/-- One run of `handleOrientation`: select the compass source, store it as
the raw heading, apply the shortest-angular-path correction to the delta
from the previous raw sample, and accumulate it into the smooth heading. -/
def handleOrientation (st : CompassState) (e : OrientationEvt) : CompassState :=
  let compass := compassOfEvent e
  let currentRaw := compass
  let previousRaw := st.lastHeading
  let delta0 := currentRaw - previousRaw
  let delta1 := if delta0 < -180 then delta0 + 360 else delta0
  let delta := if delta1 > 180 then delta1 - 360 else delta1
  { rawHeading := compass,
    smoothHeading := st.smoothHeading + delta,
    lastHeading := currentRaw }

/-- Feed a sequence of orientation events through the handler, starting from
the reset state. -/
def runOrientation (events : List OrientationEvt) : CompassState :=
  events.foldl handleOrientation resetState

/-- An event whose webkit compass field carries the given raw heading. -/
def rawEvent (q : ℚ) : OrientationEvt := ⟨some q, false, none⟩

/-! ## Qibla bearing and distance (QiblaCompass component, `calculateQibla`)

JS floating-point numbers are modelled as real numbers.  `Math.atan2 y x`
is `Complex.arg ⟨x, y⟩` (both have range `(-π, π]` and send `(0, 0)` to
`0`); the JS remainder operator `%` truncates toward zero; `Math.round`
is `⌊x + 1/2⌋`. -/

noncomputable section

/-- JS `Math.atan2 y x`, via the complex argument of `x + y i`. -/
def atan2 (y x : ℝ) : ℝ := Complex.arg ⟨x, y⟩

/-- The JS remainder operator `%` on numbers: `x - y * trunc (x / y)`,
truncation being toward zero. -/
def jsFmod (x y : ℝ) : ℝ :=
  x - y * (if 0 ≤ x / y then (⌊x / y⌋ : ℝ) else (⌈x / y⌉ : ℝ))

/-- JS `Math.round`: half-way cases round toward positive infinity. -/
def jsRound (x : ℝ) : ℤ := ⌊x + 1 / 2⌋

/-- Constant `KAABA_LAT` of the QiblaCompass component. -/
def KAABA_LAT : ℝ := 21.422487

/-- Constant `KAABA_LNG` of the QiblaCompass component. -/
def KAABA_LNG : ℝ := 39.826206

/-- Helper `toRad` from `calculateQibla`. -/
def toRad (deg : ℝ) : ℝ := deg * Real.pi / 180

/-- Helper `toDeg` from `calculateQibla`. -/
def toDeg (rad : ℝ) : ℝ := rad * 180 / Real.pi

/-- Function `calculateQibla` from the QiblaCompass component: the pair of the
normalized initial great-circle bearing toward the Kaaba and the rounded
haversine distance in kilometres (the values passed to `setQiblaBearing`
and `setDistance`). -/
def calculateQibla (lat lng : ℝ) : ℝ × ℝ :=
  let phi1 := toRad lat
  let phi2 := toRad KAABA_LAT
  let deltaLambda := toRad (KAABA_LNG - lng)
  let lambda1 := toRad lng
  let lambda2 := toRad KAABA_LNG
  let y := Real.sin deltaLambda * Real.cos phi2
  let x := Real.cos phi1 * Real.sin phi2 -
    Real.sin phi1 * Real.cos phi2 * Real.cos deltaLambda
  let bearing := jsFmod (toDeg (atan2 y x) + 360) 360
  let R : ℝ := 6371
  let dLat := phi2 - phi1
  let dLon := lambda2 - lambda1
  let a := Real.sin (dLat / 2) * Real.sin (dLat / 2) +
    Real.cos phi1 * Real.cos phi2 * Real.sin (dLon / 2) * Real.sin (dLon / 2)
  let c := 2 * atan2 (Real.sqrt a) (Real.sqrt (1 - a))
  let d := R * c
  (bearing, (jsRound d : ℝ))

end

/-! ## Fixtures -/

/-- A Hijri date record for fixture data. -/
def fixtureHijri : HijriDateInfo :=
  ⟨13, "Rajab", 1447, "الجمعة", "١٣ رجب ١٤٤٧"⟩

/-- The night-prayer fixture of the spec: Maghrib 18:00, Isha 19:20,
Midnight 23:45, LastThird 01:15 (names and Arabic labels as in the
FALLBACK_DATA constants). -/
def nightFixture : DailyData :=
  { gregorianDate := "Jumat, 2 Januari 2026",
    hijri := fixtureHijri,
    prayers := [⟨"Maghrib", "المغرب", "18:00", false⟩,
                ⟨"Isha", "العشاء", "19:20", false⟩,
                ⟨"Midnight", "نصف الليل", "23:45", false⟩,
                ⟨"LastThird", "الثلث الأخير", "01:15", false⟩],
    city := "Jakarta",
    timezone := none,
    quote := none }

/-- A one-entry schedule with only Fajr, used as a witness input. -/
def fajrOnlyFixture : DailyData :=
  { gregorianDate := "Jumat, 2 Januari 2026",
    hijri := fixtureHijri,
    prayers := [⟨"Fajr", "الفجر", "04:15", false⟩],
    city := "Jakarta",
    timezone := none,
    quote := none }

/-- The LastThird entry of the night fixture. -/
def lastThirdEntry : PrayerTime := ⟨"LastThird", "الثلث الأخير", "01:15", false⟩

/-! ## Claim theorems -/

/-- Claim C1: in `markNextPrayer` with `isToday` true, every night-prayer
entry (Isha, Midnight, LastThird, by name or Arabic label) whose minute
value is strictly below the Maghrib minute value has 1440 added before
comparison; and on the fixture schedule Maghrib=18:00, Isha=19:20,
Midnight=23:45, LastThird=01:15 at current time 20:00 the selected next
prayer is the Midnight entry (index 2), not LastThird. -/
theorem C1_night_adjustment_selects_midnight :
    (∀ (maghribMinutes : Nat) (p : PrayerTime), isNightPrayer p = true →
      parseTimeMinutes p.time < maghribMinutes →
      adjustedMinutes maghribMinutes p = parseTimeMinutes p.time + 1440) ∧
    nextPrayerIndex nightFixture.prayers 1200 = 2 ∧
    ((markNextPrayer nightFixture true 1200).prayers.map fun p => p.isNext) =
      [false, false, true, false] := by
  refine ⟨fun mm p h1 h2 => ?_, by decide, by decide⟩
  simp [adjustedMinutes, h1, h2]

/-- Witness for C1: the general night-adjustment clause applied to the
LastThird fixture entry against the Maghrib boundary 1080. -/
theorem C1_night_adjustment_witness :
    isNightPrayer lastThirdEntry = true ∧
    parseTimeMinutes lastThirdEntry.time < 1080 ∧
    adjustedMinutes 1080 lastThirdEntry = parseTimeMinutes lastThirdEntry.time + 1440 :=
  ⟨by decide, by decide,
    C1_night_adjustment_selects_midnight.1 1080 lastThirdEntry (by decide) (by decide)⟩

/-- Claim C2: the heading filter stores the current raw sample as the new
previous sample, and feeding the raw sample sequence [10, 350] from the
reset state leaves the accumulated heading strictly between -360 and 0
(the short way, -20 total, never +340). -/
theorem C2_heading_filter_short_path :
    (∀ (st : CompassState) (e : OrientationEvt),
      (handleOrientation st e).lastHeading = compassOfEvent e) ∧
    -360 < (runOrientation [rawEvent 10, rawEvent 350]).smoothHeading ∧
    (runOrientation [rawEvent 10, rawEvent 350]).smoothHeading < 0 := by
  refine ⟨fun _ _ => rfl, ?_, ?_⟩ <;>
    norm_num [runOrientation, handleOrientation, compassOfEvent, rawEvent, resetState]

/-- Claim C4 (amended): the heading source priority of `handleOrientation`.
The webkit compass field wins only when it is present AND nonzero (the JS
test is truthiness, not presence); otherwise any non-null alpha gives
`|alpha - 360|` (the absolute and non-absolute branches compute the same
expression); otherwise the heading is the initialisation value 0. -/
theorem C4_heading_source_priority :
    (∀ (e : OrientationEvt) (w : ℚ), e.webkitCompassHeading = some w → w ≠ 0 →
      compassOfEvent e = w) ∧
    (∀ (e : OrientationEvt) (a : ℚ),
      (e.webkitCompassHeading = none ∨ e.webkitCompassHeading = some 0) →
      e.alpha = some a → compassOfEvent e = |a - 360|) ∧
    (∀ e : OrientationEvt,
      (e.webkitCompassHeading = none ∨ e.webkitCompassHeading = some 0) →
      e.alpha = none → compassOfEvent e = 0) := by
  refine ⟨fun e w hw hne => ?_, fun e a hw ha => ?_, fun e hw ha => ?_⟩
  · obtain ⟨wk, ab, al⟩ := e
    cases hw
    simp [compassOfEvent, hne]
  · obtain ⟨wk, ab, al⟩ := e
    cases ha
    rcases hw with h | h <;> cases h <;> cases ab <;>
      simp [compassOfEvent, jsAbs_eq_abs]
  · obtain ⟨wk, ab, al⟩ := e
    cases ha
    rcases hw with h | h <;> cases h <;> cases ab <;> simp [compassOfEvent]

/-- Witness for C4: each clause of the priority theorem applied at a
concrete event. -/
theorem C4_heading_source_witness :
    compassOfEvent ⟨some 45, false, none⟩ = 45 ∧
    compassOfEvent ⟨none, true, some 90⟩ = |(90 : ℚ) - 360| ∧
    compassOfEvent ⟨some 0, false, none⟩ = 0 :=
  ⟨C4_heading_source_priority.1 _ 45 rfl (by norm_num),
   C4_heading_source_priority.2.1 _ 90 (Or.inl rfl) rfl,
   C4_heading_source_priority.2.2 _ (Or.inr rfl) rfl⟩

/-- Counterexample to C4 as stated: an event whose webkit compass field is
present with value 0 does not win the priority; the code falls through to
the alpha branch and yields 270, not the field value 0. -/
theorem C4_presence_counterexample :
    (⟨some 0, true, some 90⟩ : OrientationEvt).webkitCompassHeading = some 0 ∧
    compassOfEvent ⟨some 0, true, some 90⟩ = 270 ∧
    compassOfEvent ⟨some 0, true, some 90⟩ ≠ 0 := by
  refine ⟨rfl, ?_, ?_⟩ <;> norm_num [compassOfEvent, jsAbs]

/-- Claim C5 (amended): for an event with no webkit compass field and raw
alpha in [0, 360), the stored raw heading lies in (0, 360] — the conversion
`abs(alpha - 360)` yields 360 (not a value below 360) at alpha = 0. -/
theorem C5_raw_heading_range :
    ∀ (st : CompassState) (e : OrientationEvt) (a : ℚ),
      e.webkitCompassHeading = none → e.alpha = some a → 0 ≤ a → a < 360 →
      0 < (handleOrientation st e).rawHeading ∧
      (handleOrientation st e).rawHeading ≤ 360 := by
  intro st e a hw ha h0 h360
  obtain ⟨wk, ab, al⟩ := e
  cases hw
  cases ha
  have hval : compassOfEvent ⟨none, ab, some a⟩ = |a - 360| := by
    cases ab <;> simp [compassOfEvent, jsAbs_eq_abs]
  have habs : |a - 360| = 360 - a := by
    rw [abs_of_neg (by linarith)]
    ring
  refine ⟨?_, ?_⟩ <;>
    simp only [handleOrientation, hval, habs] <;> linarith

/-- Witness for C5: the amended range theorem applied at alpha = 10. -/
theorem C5_raw_heading_witness :
    ((0 : ℚ) ≤ 10 ∧ (10 : ℚ) < 360) ∧
    0 < (handleOrientation resetState ⟨none, false, some 10⟩).rawHeading ∧
    (handleOrientation resetState ⟨none, false, some 10⟩).rawHeading ≤ 360 :=
  ⟨⟨by norm_num, by norm_num⟩,
   C5_raw_heading_range resetState ⟨none, false, some 10⟩ 10 rfl rfl
     (by norm_num) (by norm_num)⟩

/-- Counterexample to C5 as stated: at raw alpha 0 (which lies in [0, 360))
the stored raw heading is exactly 360, which is not below 360. -/
theorem C5_raw_heading_counterexample :
    (0 : ℚ) ≤ 0 ∧ (0 : ℚ) < 360 ∧
    (handleOrientation resetState ⟨none, false, some 0⟩).rawHeading = 360 ∧
    ¬ (handleOrientation resetState ⟨none, false, some 0⟩).rawHeading < 360 := by
  refine ⟨by norm_num, by norm_num, ?_, ?_⟩ <;>
    norm_num [handleOrientation, compassOfEvent, jsAbs, resetState]

/-- Claim C8: when no schedule entry is recognizable as Maghrib (neither by
name nor by Arabic label), the night boundary falls back to 1080 minutes
(18:00) and `markNextPrayer` completes normally, returning a full schedule. -/
theorem C8_maghrib_fallback :
    ∀ (data : DailyData) (currentMinutes : Nat),
      (∀ p ∈ data.prayers, isMaghribEntry p = false) →
      maghribMinutesOf data.prayers = 1080 ∧
      (markNextPrayer data true currentMinutes).prayers.length =
        data.prayers.length := by
  intro data cm h
  have hnone : data.prayers.find? isMaghribEntry = none :=
    List.find?_eq_none.mpr fun p hp => by simp [h p hp]
  constructor
  · simp [maghribMinutesOf, hnone]
  · simp [markNextPrayer]

/-- Witness for C8: the fallback theorem applied to a schedule with a single
Fajr entry (no Maghrib anywhere). -/
theorem C8_maghrib_fallback_witness :
    maghribMinutesOf fajrOnlyFixture.prayers = 1080 ∧
    (markNextPrayer fajrOnlyFixture true 0).prayers.length =
      fajrOnlyFixture.prayers.length :=
  C8_maghrib_fallback fajrOnlyFixture 0 (by decide)

/-! ## Lemmas about the selection fold, for C6 and C7 -/

/-- If every listed entry has adjusted minutes at or before the current
time, the selection fold never moves off its accumulator. -/
theorem foldl_selectStep_of_none_after {currentMinutes maghribMinutes : Nat} :
    ∀ (l : List (Nat × PrayerTime)) (acc : Option (Nat × Nat)),
      (∀ ip ∈ l, adjustedMinutes maghribMinutes ip.2 ≤ currentMinutes) →
      l.foldl (selectStep currentMinutes maghribMinutes) acc = acc := by
  intro l
  induction l with
  | nil => intro acc _ ; rfl
  | cons c cs ih =>
    intro acc h
    have hc : adjustedMinutes maghribMinutes c.2 ≤ currentMinutes :=
      h c (List.mem_cons_self c cs)
    have hstep : selectStep currentMinutes maghribMinutes acc c = acc := by
      simp [selectStep, Nat.not_lt.mpr hc]
    rw [List.foldl_cons, hstep]
    exact ih acc fun ip hip => h ip (List.mem_cons_of_mem c hip)

/-- The index produced by the selection fold comes either from the
accumulator or from one of the listed index-entry pairs. -/
theorem foldl_selectStep_index {currentMinutes maghribMinutes : Nat} :
    ∀ (l : List (Nat × PrayerTime)) (acc : Option (Nat × Nat)) (i d : Nat),
      l.foldl (selectStep currentMinutes maghribMinutes) acc = some (i, d) →
      (∃ d0, acc = some (i, d0)) ∨ ∃ p, (i, p) ∈ l := by
  intro l
  induction l with
  | nil =>
    intro acc i d h
    exact Or.inl ⟨d, h⟩
  | cons c cs ih =>
    intro acc i d h
    rw [List.foldl_cons] at h
    rcases ih _ i d h with ⟨d0, hd0⟩ | ⟨p, hp⟩
    · by_cases hpm : currentMinutes < adjustedMinutes maghribMinutes c.2
      · cases acc with
        | none =>
          simp [selectStep, hpm] at hd0
          exact Or.inr ⟨c.2, by rw [← hd0.1] ; exact List.mem_cons_self c cs⟩
        | some jd =>
          obtain ⟨j, md⟩ := jd
          simp only [selectStep, hpm, if_true, gt_iff_lt, if_pos hpm] at hd0
          by_cases hlt : adjustedMinutes maghribMinutes c.2 - currentMinutes < md
          · rw [if_pos hlt] at hd0
            simp only [Option.some.injEq, Prod.mk.injEq] at hd0
            exact Or.inr ⟨c.2, by rw [← hd0.1] ; exact List.mem_cons_self c cs⟩
          · rw [if_neg hlt] at hd0
            simp only [Option.some.injEq, Prod.mk.injEq] at hd0
            exact Or.inl ⟨md, by rw [hd0.1]⟩
      · have : selectStep currentMinutes maghribMinutes acc c = acc := by
          simp [selectStep, hpm]
        rw [this] at hd0
        exact Or.inl ⟨d0, hd0⟩
    · exact Or.inr ⟨p, List.mem_cons_of_mem c hp⟩

/-- An index appearing in `l.enum` is below the length of `l`. -/
theorem mem_enum_lt {α : Type} {l : List α} {i : Nat} {a : α}
    (h : (i, a) ∈ l.enum) : i < l.length := by
  have h2 := List.mem_enumFrom (by simpa [List.enum] using h)
  simpa using h2.2.1

/-- A pair appearing in `l.enum` has its second component in `l`. -/
theorem mem_enum_snd {α : Type} {l : List α} {ip : Nat × α}
    (h : ip ∈ l.enum) : ip.2 ∈ l := by
  have := List.mem_map_of_mem Prod.snd h
  rwa [List.enum_map_snd] at this

/-- The next-prayer index is always a valid index of a non-empty schedule. -/
theorem nextPrayerIndex_lt {prayers : List PrayerTime} (h : prayers ≠ [])
    (currentMinutes : Nat) :
    nextPrayerIndex prayers currentMinutes < prayers.length := by
  unfold nextPrayerIndex
  cases hfold : prayers.enum.foldl
      (selectStep currentMinutes (maghribMinutesOf prayers)) none with
  | none => simpa [List.length_pos] using h
  | some id =>
    obtain ⟨i, d⟩ := id
    rcases foldl_selectStep_index _ _ i d hfold with ⟨d0, h0⟩ | ⟨p, hp⟩
    · exact absurd h0 (by simp)
    · exact mem_enum_lt hp

/-- The pattern of `isNext` flags produced by the today-branch of
`markNextPrayer` is the indicator of the chosen index over `range`. -/
theorem map_isNext_mark (l : List PrayerTime) (n : Nat) :
    ((l.enum.map fun ip => ({ ip.2 with isNext := ip.1 == n } : PrayerTime)).map
      fun p => p.isNext) = (List.range l.length).map fun i => i == n := by
  rw [List.map_map]
  have h : ((fun p : PrayerTime => p.isNext) ∘
      fun ip : Nat × PrayerTime => ({ ip.2 with isNext := ip.1 == n } : PrayerTime)) =
      (fun i => i == n) ∘ Prod.fst := rfl
  rw [h, ← List.map_map, List.enum_map_fst]

/-- The indicator of index 0 over `range (k + 1)`. -/
theorem range_map_beq_zero (k : Nat) :
    (List.range (k + 1)).map (fun i => i == 0) = true :: List.replicate k false := by
  rw [List.range_succ_eq_map, List.map_cons, List.map_map]
  have h : ((fun i => i == 0) ∘ Nat.succ) = fun _ : Nat => false := by
    funext x
    simp
  rw [h]
  simp [List.map_const]

/-- Claim C6: with `isToday` true, if no entry of the non-empty schedule has
an adjusted minutes value strictly above the current time, `markNextPrayer`
selects index 0 (Fajr): the first entry alone is flagged next.  The case is
handled by the fallback assignment, not an error. -/
theorem C6_wrap_to_fajr :
    ∀ (data : DailyData) (currentMinutes : Nat), data.prayers ≠ [] →
      (∀ p ∈ data.prayers,
        adjustedMinutes (maghribMinutesOf data.prayers) p ≤ currentMinutes) →
      nextPrayerIndex data.prayers currentMinutes = 0 ∧
      ((markNextPrayer data true currentMinutes).prayers.map fun p => p.isNext) =
        true :: List.replicate (data.prayers.length - 1) false := by
  intro data cm hne h
  have hfold : data.prayers.enum.foldl
      (selectStep cm (maghribMinutesOf data.prayers)) none = none :=
    foldl_selectStep_of_none_after _ none fun ip hip => h ip.2 (mem_enum_snd hip)
  have hidx : nextPrayerIndex data.prayers cm = 0 := by
    unfold nextPrayerIndex
    rw [hfold]
  refine ⟨hidx, ?_⟩
  have hmark : (markNextPrayer data true cm).prayers =
      data.prayers.enum.map fun ip => { ip.2 with isNext := ip.1 == 0 } := by
    simp [markNextPrayer, hidx]
  rw [hmark, map_isNext_mark]
  obtain ⟨k, hk⟩ : ∃ k, data.prayers.length = k + 1 :=
    ⟨data.prayers.length - 1,
      (Nat.succ_pred_eq_of_pos (List.length_pos.mpr hne)).symm⟩
  rw [hk]
  simpa using range_map_beq_zero k

/-- Witness for C6: the wrap theorem applied to the Fajr-only schedule at
current time 1300 (21:40), after which no prayer remains. -/
theorem C6_wrap_to_fajr_witness :
    fajrOnlyFixture.prayers ≠ [] ∧
    nextPrayerIndex fajrOnlyFixture.prayers 1300 = 0 ∧
    ((markNextPrayer fajrOnlyFixture true 1300).prayers.map fun p => p.isNext) =
      true :: List.replicate (fajrOnlyFixture.prayers.length - 1) false :=
  ⟨by decide, C6_wrap_to_fajr fajrOnlyFixture 1300 (by decide) (by decide)⟩

/-- Claim C7: for a non-empty schedule, exactly one entry is flagged next
when `isToday` is true and exactly zero when it is false. -/
theorem C7_exactly_one_next :
    ∀ (data : DailyData) (isToday : Bool) (currentMinutes : Nat),
      data.prayers ≠ [] →
      ((markNextPrayer data isToday currentMinutes).prayers.countP
        fun p => p.isNext) = if isToday then 1 else 0 := by
  intro data b cm hne
  cases b with
  | false =>
    have hmark : (markNextPrayer data false cm).prayers =
        data.prayers.map fun p => { p with isNext := false } := by
      simp [markNextPrayer]
    rw [hmark, List.countP_map]
    have h : ((fun p : PrayerTime => p.isNext) ∘
        fun p : PrayerTime => ({ p with isNext := false } : PrayerTime)) =
        fun _ => false := rfl
    rw [h]
    simp
  | true =>
    have hmark : (markNextPrayer data true cm).prayers =
        data.prayers.enum.map
          fun ip => { ip.2 with isNext := ip.1 == nextPrayerIndex data.prayers cm } := by
      simp [markNextPrayer]
    rw [hmark]
    have h2 : ((data.prayers.enum.map fun ip =>
        ({ ip.2 with isNext := ip.1 == nextPrayerIndex data.prayers cm } : PrayerTime)).countP
        fun p => p.isNext) =
        (List.range data.prayers.length).countP
          fun i => i == nextPrayerIndex data.prayers cm := by
      rw [List.countP_map]
      conv_rhs => rw [← List.enum_map_fst data.prayers]
      rw [List.countP_map]
      rfl
    rw [h2]
    rw [show ((List.range data.prayers.length).countP
        fun i => i == nextPrayerIndex data.prayers cm) =
        List.count (nextPrayerIndex data.prayers cm)
          (List.range data.prayers.length) from rfl]
    rw [List.count_eq_one_of_mem (List.nodup_range _)
      (List.mem_range.mpr (nextPrayerIndex_lt hne cm))]
    simp

/-- Witness for C7: the count theorem applied to the Fajr-only schedule for
both values of `isToday`. -/
theorem C7_exactly_one_next_witness :
    fajrOnlyFixture.prayers ≠ [] ∧
    (((markNextPrayer fajrOnlyFixture true 0).prayers.countP
      fun p => p.isNext) = if true then 1 else 0) ∧
    (((markNextPrayer fajrOnlyFixture false 0).prayers.countP
      fun p => p.isNext) = if false then 1 else 0) :=
  ⟨by decide, C7_exactly_one_next fajrOnlyFixture true 0 (by decide),
    C7_exactly_one_next fajrOnlyFixture false 0 (by decide)⟩

/-- Claim C10: `markNextPrayer` changes only the `isNext` flags: the
surrounding fields of the daily record are unchanged and the prayer list
keeps its length, order, names, Arabic names and times. -/
theorem C10_frame_preservation :
    ∀ (data : DailyData) (isToday : Bool) (currentMinutes : Nat),
      (markNextPrayer data isToday currentMinutes).gregorianDate =
        data.gregorianDate ∧
      (markNextPrayer data isToday currentMinutes).hijri = data.hijri ∧
      (markNextPrayer data isToday currentMinutes).city = data.city ∧
      (markNextPrayer data isToday currentMinutes).timezone = data.timezone ∧
      (markNextPrayer data isToday currentMinutes).quote = data.quote ∧
      ((markNextPrayer data isToday currentMinutes).prayers.map
        fun p => (p.name, p.nameArabic, p.time)) =
        data.prayers.map fun p => (p.name, p.nameArabic, p.time) := by
  intro data b cm
  cases b with
  | false =>
    refine ⟨rfl, rfl, rfl, rfl, rfl, ?_⟩
    show ((data.prayers.map fun p => ({ p with isNext := false } : PrayerTime)).map
      fun p => (p.name, p.nameArabic, p.time)) = _
    rw [List.map_map]
    rfl
  | true =>
    refine ⟨rfl, rfl, rfl, rfl, rfl, ?_⟩
    show ((data.prayers.enum.map fun ip =>
        ({ ip.2 with isNext := ip.1 == nextPrayerIndex data.prayers cm } : PrayerTime)).map
      fun p => (p.name, p.nameArabic, p.time)) = _
    conv_rhs => rw [← List.enum_map_snd data.prayers]
    rw [List.map_map, List.map_map]
    rfl

/-! ## Lemmas about the Qibla geometry, for C3 and C9 -/

/-- The normalization `(b + 360) % 360` of the source lands in `[0, 360)`
whenever its argument is positive. -/
theorem jsFmod_mem_Ico (x : ℝ) (hx : 0 < x) :
    0 ≤ jsFmod x 360 ∧ jsFmod x 360 < 360 := by
  have h360 : (0 : ℝ) < 360 := by norm_num
  have hq : 0 ≤ x / 360 := le_of_lt (div_pos hx h360)
  have hfr : x - 360 * (⌊x / 360⌋ : ℝ) = 360 * Int.fract (x / 360) := by
    have h : (360 : ℝ) * (x / 360) = x := by field_simp
    rw [Int.fract, mul_sub, h]
  unfold jsFmod
  rw [if_pos hq, hfr]
  constructor
  · exact mul_nonneg (by norm_num) (Int.fract_nonneg _)
  · have h1 := Int.fract_lt_one (x / 360)
    nlinarith [Int.fract_nonneg (x / 360)]

/-- Function `atan2` never returns a value at or below `-π`. -/
theorem neg_pi_lt_atan2 (y x : ℝ) : -Real.pi < atan2 y x :=
  Complex.neg_pi_lt_arg _

/-- Function `atan2` of a nonnegative ordinate is nonnegative. -/
theorem atan2_nonneg (y x : ℝ) (hy : 0 ≤ y) : 0 ≤ atan2 y x :=
  Complex.arg_nonneg_iff.mpr hy

/-- Degrees of an angle strictly above `-π` are strictly above `-180`. -/
theorem toDeg_lower (r : ℝ) (h : -Real.pi < r) : -180 < toDeg r := by
  unfold toDeg
  rw [lt_div_iff₀ Real.pi_pos]
  nlinarith [Real.pi_pos]

/-- The source normalization of any `atan2` value lies in `[0, 360)`. -/
theorem bearing_range (y x : ℝ) :
    0 ≤ jsFmod (toDeg (atan2 y x) + 360) 360 ∧
    jsFmod (toDeg (atan2 y x) + 360) 360 < 360 := by
  apply jsFmod_mem_Ico
  have := toDeg_lower _ (neg_pi_lt_atan2 y x)
  linarith

/-- The rounded haversine distance of the source is nonnegative for every
value of the haversine quantity `a`. -/
theorem round_dist_nonneg (a : ℝ) :
    0 ≤ ((jsRound (6371 * (2 * atan2 (Real.sqrt a) (Real.sqrt (1 - a)))) : ℤ) : ℝ) := by
  have h1 : 0 ≤ atan2 (Real.sqrt a) (Real.sqrt (1 - a)) :=
    atan2_nonneg _ _ (Real.sqrt_nonneg _)
  have hd : (0 : ℝ) ≤ 6371 * (2 * atan2 (Real.sqrt a) (Real.sqrt (1 - a))) := by
    nlinarith
  unfold jsRound
  have h2 : (0 : ℤ) ≤ ⌊6371 * (2 * atan2 (Real.sqrt a) (Real.sqrt (1 - a))) + 1 / 2⌋ :=
    Int.floor_nonneg.mpr (by linarith)
  exact_mod_cast h2

/-- Claim C3: for all observer coordinates in the stated domain, the bearing
computed by `calculateQibla` lies in `[0, 360)` after the add-360-modulo-360
normalization, and the rounded haversine distance is nonnegative. -/
theorem C3_bearing_distance_range :
    ∀ (lat lng : ℝ), -90 ≤ lat → lat ≤ 90 → -180 ≤ lng → lng ≤ 180 →
      (0 ≤ (calculateQibla lat lng).1 ∧ (calculateQibla lat lng).1 < 360) ∧
      0 ≤ (calculateQibla lat lng).2 := by
  intro lat lng _ _ _ _
  simp only [calculateQibla]
  exact ⟨bearing_range _ _, round_dist_nonneg _⟩

/-- Witness for C3: the range theorem applied at the origin coordinate. -/
theorem C3_bearing_distance_witness :
    ((-90 : ℝ) ≤ 0 ∧ (0 : ℝ) ≤ 90 ∧ (-180 : ℝ) ≤ 0 ∧ (0 : ℝ) ≤ 180) ∧
    (0 ≤ (calculateQibla 0 0).1 ∧ (calculateQibla 0 0).1 < 360) ∧
    0 ≤ (calculateQibla 0 0).2 :=
  ⟨⟨by norm_num, by norm_num, by norm_num, by norm_num⟩,
    C3_bearing_distance_range 0 0 (by norm_num) (by norm_num)
      (by norm_num) (by norm_num)⟩

/-- Value `toRad 0` is zero. -/
theorem toRad_zero : toRad 0 = 0 := by
  unfold toRad
  ring

/-- Value `toDeg 0` is zero. -/
theorem toDeg_zero : toDeg 0 = 0 := by
  unfold toDeg
  ring

/-- Value `Math.atan2 0 0` is zero (both JS and the complex argument send the origin
to zero). -/
theorem atan2_zero_zero : atan2 0 0 = 0 := by
  unfold atan2
  rw [show (⟨0, 0⟩ : ℂ) = 0 from Complex.ext (by simp) (by simp)]
  exact Complex.arg_zero

/-- Value `Math.atan2 0 1` is zero. -/
theorem atan2_zero_one : atan2 0 1 = 0 := by
  unfold atan2
  rw [show (⟨1, 0⟩ : ℂ) = 1 from Complex.ext (by simp) (by simp)]
  exact Complex.arg_one

/-- Value `360 % 360` is zero under the JS remainder. -/
theorem jsFmod_self_360 : jsFmod 360 360 = 0 := by
  unfold jsFmod
  rw [div_self (by norm_num : (360 : ℝ) ≠ 0), if_pos (by norm_num : (0 : ℝ) ≤ 1)]
  norm_num

/-- Value `Math.round 0` is zero. -/
theorem jsRound_zero : jsRound 0 = 0 := by
  unfold jsRound
  rw [zero_add, Int.floor_eq_zero_iff, Set.mem_Ico]
  constructor <;> norm_num

/-- Claim C9: when the observer coordinate equals the Kaaba coordinate,
`calculateQibla` returns bearing 0 and distance 0 without any special-case
handling. -/
theorem C9_degenerate_observer :
    calculateQibla KAABA_LAT KAABA_LNG = (0, 0) := by
  have hx : Real.cos (toRad KAABA_LAT) * Real.sin (toRad KAABA_LAT) -
      Real.sin (toRad KAABA_LAT) * Real.cos (toRad KAABA_LAT) = 0 := by
    ring
  simp only [calculateQibla, sub_self, toRad_zero, Real.sin_zero, Real.cos_zero,
    zero_mul, mul_zero, mul_one, zero_div, add_zero, zero_add, sub_zero,
    Real.sqrt_zero, Real.sqrt_one, hx, atan2_zero_zero, atan2_zero_one,
    toDeg_zero, jsFmod_self_360, jsRound_zero, Int.cast_zero]

end JadwalSholat
